import Mathlib

/-!
Shallow embedding of the Uploader class (src/uploader.ts) and proofs about its
selection, caching, option merging, retry and event-emission behaviour.

The embedding models the mutable instance state (resolved config, file cache,
default upload options) as an explicit record, and the observable behaviour of
a call as a trace of actions: invocations of the chosen upload function,
arming of the per-attempt timeout timer, synchronous event emissions on the
single event channel, and the backoff waits between attempts.  Asynchronous
upload attempts are modelled by an oracle assigning each attempt index its
observable outcome: the attempt promise resolves before the timeout timer,
rejects before the timer, or the timer fires first.
-/

namespace Mtup

/-- A selected file: opaque binary content plus the metadata the uploader
reads (name, byte size, lastModified timestamp). -/
structure FileHandle where
  name : String
  size : Nat
  lastModified : Int
  content : String
deriving DecidableEq

/-- Untyped values flowing through event payloads, upload results and errors:
plain strings, numbers, or Error objects carrying a message. -/
inductive JsVal where
  | str (s : String)
  | num (n : Int)
  | errObj (msg : String)
deriving DecidableEq

/-- Upload options (url, method, headers, data); none models an absent
property of the options object. -/
structure UploadOptions where
  url : Option String := none
  method : Option String := none
  headers : Option (List (String × String)) := none
  data : Option (List (String × String)) := none
deriving DecidableEq

/-- The empty options object. -/
def emptyUploadOptions : UploadOptions := {}

/-- Object spread of percall over defaults: a property present in percall
wins, otherwise the property of defaults is kept. -/
def mergeOptions (defaults percall : UploadOptions) : UploadOptions where
  url := percall.url <|> defaults.url
  method := percall.method <|> defaults.method
  headers := percall.headers <|> defaults.headers
  data := percall.data <|> defaults.data

/-- Constructor argument: the user-supplied UploadConfig.  The custom upload
function itself is higher order; the config records whether one was supplied,
and its observable behaviour is given to upload as the attempt oracle. -/
structure UploadConfig where
  accept : Option String := none
  multiple : Option Bool := none
  maxRetries : Option Nat := none
  timeout : Option Nat := none
  maxSize : Option Nat := none
  customUploader : Bool := false
deriving DecidableEq

/-- The config after the constructor merged the user config over the fixed
defaults. -/
structure ResolvedConfig where
  accept : String
  multiple : Bool
  maxRetries : Nat
  timeout : Nat
  maxSize : Nat
  customUploader : Bool
deriving DecidableEq

/-- Constructor merge: user-supplied properties override the defaults
accept "*", multiple false, maxRetries 3, timeout 30000, maxSize 10MiB. -/
def resolveConfig (config : UploadConfig) : ResolvedConfig where
  accept := config.accept.getD "*"
  multiple := config.multiple.getD false
  maxRetries := config.maxRetries.getD 3
  timeout := config.timeout.getD 30000
  maxSize := config.maxSize.getD (10 * 1024 * 1024)
  customUploader := config.customUploader

/-- The fileCache Map: association list from derived key to file, with
Map.set semantics (update in place, else append). -/
abbrev FileCache := List (String × FileHandle)

/-- Map.get: the entry under a key, if present. -/
def cacheGet (c : FileCache) (k : String) : Option FileHandle :=
  (c.find? fun p => p.1 == k).map Prod.snd

/-- Map.set: replace the entry under the key if present, else append. -/
def cacheSet (c : FileCache) (k : String) (v : FileHandle) : FileCache :=
  if c.any fun p => p.1 == k then
    c.map fun p => if p.1 == k then (k, v) else p
  else
    c ++ [(k, v)]

/-- Map.delete: drop the entry under the key. -/
def cacheDelete (c : FileCache) (k : String) : FileCache :=
  c.filter fun p => !(p.1 == k)

/-- Number of entries stored under a key. -/
def countKey (c : FileCache) (k : String) : Nat :=
  c.countP fun p => p.1 == k

/-- The mutable instance state of an Uploader. -/
structure UploaderState where
  config : ResolvedConfig
  fileCache : FileCache
  defaultUploadOptions : UploadOptions
deriving DecidableEq

/-- The constructor: resolve the config, start with an empty cache and the
default upload options method POST, url /upload. -/
def mkUploader (config : UploadConfig) : UploaderState where
  config := resolveConfig config
  fileCache := []
  defaultUploadOptions := { url := some "/upload", method := some "POST" }

/-- setDefaultUploadOptions: shallow-merge the argument over the current
default upload options. -/
def setDefaultUploadOptions (st : UploaderState) (options : UploadOptions) : UploaderState :=
  { st with defaultUploadOptions := mergeOptions st.defaultUploadOptions options }

/-- generateFileKey: name, size and lastModified joined by dashes. -/
def generateFileKey (file : FileHandle) : String :=
  file.name ++ "-" ++ toString file.size ++ "-" ++ toString file.lastModified

/-- Lifecycle events emitted on the single upload channel. -/
inductive Event where
  | select (files : List FileHandle)
  | progress (loaded total : Nat) (percent : ℚ)
  | error (payload : JsVal)
  | success (result : JsVal)
  | retry (attempt : Nat) (error : JsVal)
deriving DecidableEq

/-- Which upload function the orchestrator picked. -/
inductive UploadFn where
  | custom
  | builtin
deriving DecidableEq

/-- Observable actions of a call, in order: invoking the chosen upload
function on a file with options, arming the per-attempt timeout timer,
emitting an event, and sleeping a backoff delay. -/
inductive Action where
  | callUpload (fn : UploadFn) (file : FileHandle) (options : UploadOptions)
  | armTimer (ms : Nat)
  | emit (e : Event)
  | wait (ms : Nat)
deriving DecidableEq

/-- The fixed oversize error message emitted for a batch with dropped files. -/
def oversizeMessage : String := "部分文件超过最大尺寸限制"

/-- The selection filter: file.size less-or-equal maxSize-or-Infinity.  A zero
maxSize is falsy and coalesces to Infinity, so every file passes then. -/
def sizePasses (maxSize : Nat) (file : FileHandle) : Bool :=
  if maxSize = 0 then true else file.size ≤ maxSize

/-- Result of handleFileSelection: the updated state and the emitted trace. -/
structure SelectionRun where
  state : UploaderState
  trace : List Action

/-- handleFileSelection: filter by size, emit one error event if any file was
dropped, insert every valid file into the cache under its derived key, then
emit one select event with the valid files. -/
def handleFileSelection (st : UploaderState) (files : List FileHandle) : SelectionRun :=
  let validFiles := files.filter (sizePasses st.config.maxSize)
  let errorActions : List Action :=
    if validFiles.length ≠ files.length then
      [Action.emit (Event.error (JsVal.str oversizeMessage))]
    else []
  let cache1 := validFiles.foldl (fun c f => cacheSet c (generateFileKey f) f) st.fileCache
  { state := { st with fileCache := cache1 },
    trace := errorActions ++ [Action.emit (Event.select validFiles)] }

/-- Observable outcome of one attempt of the chosen upload function, relative
to the per-attempt timeout timer. -/
inductive AttemptOutcome where
  | resolves (r : JsVal)
  | rejects (e : JsVal)
  | timesOut
deriving DecidableEq

/-- The synthetic error the timeout branch rejects with. -/
def timeoutErrorVal : JsVal := JsVal.errObj "Upload timeout"

/-- Promise.race of the attempt promise against the timeout timer: a timer
firing first rejects with the synthetic timeout error. -/
def raceOutcome : AttemptOutcome → Except JsVal JsVal
  | AttemptOutcome.resolves r => Except.ok r
  | AttemptOutcome.rejects e => Except.error e
  | AttemptOutcome.timesOut => Except.error timeoutErrorVal

/-- Whether an attempt outcome lands in the catch branch. -/
def attemptFails (o : AttemptOutcome) : Bool :=
  match raceOutcome o with
  | Except.ok _ => false
  | Except.error _ => true

/-- Whether the promise returned by upload was rejected. -/
def isRejected (r : Except JsVal JsVal) : Bool :=
  match r with
  | Except.ok _ => false
  | Except.error _ => true

/-- Pick the upload function: the custom one when configured, else the
built-in default. -/
def chooseUploadFn (config : ResolvedConfig) : UploadFn :=
  if config.customUploader then UploadFn.custom else UploadFn.builtin

/-- The attemptUpload retry loop.  gas is the remaining retry budget
maxRetries - retries, so the source test retries < maxRetries is the test
that gas is nonzero.  Each attempt invokes the upload function, arms the
timeout timer and races them; on success it emits success and resolves; on
failure it emits error and, if budget remains, emits retry with the
incremented attempt counter, sleeps 1000ms times that counter and recurses,
else rejects with the last error. -/
def attemptGo (fn : UploadFn) (file : FileHandle) (options : UploadOptions)
    (timeoutMs : Nat) (out : Nat → AttemptOutcome) (retries gas : Nat) :
    List Action × Except JsVal JsVal :=
  match raceOutcome (out retries) with
  | Except.ok r =>
      ([Action.callUpload fn file options, Action.armTimer timeoutMs,
        Action.emit (Event.success r)], Except.ok r)
  | Except.error e =>
      match gas with
      | 0 =>
          ([Action.callUpload fn file options, Action.armTimer timeoutMs,
            Action.emit (Event.error e)], Except.error e)
      | g + 1 =>
          let rest := attemptGo fn file options timeoutMs out (retries + 1) g
          (Action.callUpload fn file options :: Action.armTimer timeoutMs ::
            Action.emit (Event.error e) :: Action.emit (Event.retry (retries + 1) e) ::
            Action.wait (1000 * (retries + 1)) :: rest.1, rest.2)

/-- attemptUpload entry point at a given retries counter and maxRetries. -/
def attemptUpload (fn : UploadFn) (file : FileHandle) (options : UploadOptions)
    (timeoutMs : Nat) (out : Nat → AttemptOutcome) (retries maxRetries : Nat) :
    List Action × Except JsVal JsVal :=
  attemptGo fn file options timeoutMs out retries (maxRetries - retries)

/-- A native xhr progress event as seen by the onprogress handler. -/
structure NativeProgressEvent where
  lengthComputable : Bool
  loaded : Nat
  total : Nat
deriving DecidableEq

/-- The xhr.upload.onprogress handler installed by uploadWithProgress: a
length-computable native progress event is translated into one emitted
progress event with percent loaded over total times 100. -/
def onprogressHandler (ev : NativeProgressEvent) : List Event :=
  if ev.lengthComputable then
    [Event.progress ev.loaded ev.total (((ev.loaded : ℚ) / (ev.total : ℚ)) * 100)]
  else []

/-- The XMLHttpRequest created inside uploadWithProgress registers the
onprogress handler but never issues a request (the actual transfer goes
through the fetch-based transport or the custom function), so it fires no
native progress events. -/
def xhrNativeProgressEvents : List NativeProgressEvent := []

/-- uploadWithProgress: create the xhr, install the onprogress handler, then
run the upload method.  Its contribution to the trace is the translation of
the native progress events fired by that xhr, followed by the trace of the
upload method. -/
def uploadWithProgress (run : List Action × Except JsVal JsVal) :
    List Action × Except JsVal JsVal :=
  (((xhrNativeProgressEvents.map onprogressHandler).flatten.map Action.emit) ++ run.1, run.2)

/-- Result of an upload call: the updated instance state, the emitted trace,
and the settled value of the returned promise. -/
structure UploadRun where
  state : UploaderState
  trace : List Action
  result : Except JsVal JsVal

/-- upload: derive the file key, merge the per-call options over the default
upload options, choose the upload function, run the retry loop under
uploadWithProgress, and on success delete the file key from the cache. -/
def upload (st : UploaderState) (file : FileHandle) (uploadOptions : Option UploadOptions)
    (out : Nat → AttemptOutcome) : UploadRun :=
  let fileKey := generateFileKey file
  let mergedOptions := mergeOptions st.defaultUploadOptions (uploadOptions.getD emptyUploadOptions)
  let fn := chooseUploadFn st.config
  let run := uploadWithProgress
    (attemptUpload fn file mergedOptions st.config.timeout out 0 st.config.maxRetries)
  { state :=
      match run.2 with
      | Except.ok _ => { st with fileCache := cacheDelete st.fileCache fileKey }
      | Except.error _ => st
    trace := run.1
    result := run.2 }

/-- A multipart form field value: the file blob or a stringified data value. -/
inductive FormValue where
  | fileVal (f : FileHandle)
  | strVal (s : String)
deriving DecidableEq

/-- The single request issued by the built-in transport. -/
structure HttpRequest where
  url : String
  method : String
  headers : List (String × String)
  formFields : List (String × FormValue)
deriving DecidableEq

/-- The or-with-fallback on an optional string: absent or empty (falsy)
falls back to the default. -/
def jsOrStr (o : Option String) (d : String) : String :=
  match o with
  | none => d
  | some s => if s = "" then d else s

/-- defaultUploader: build a FormData with the file field plus one field per
extra data entry, and issue one request to the configured url with the
configured method and headers. -/
def defaultUploader (file : FileHandle) (options : Option UploadOptions) : HttpRequest where
  url := jsOrStr (options.bind (·.url)) "/upload"
  method := jsOrStr (options.bind (·.method)) "POST"
  headers := (options.bind (·.headers)).getD []
  formFields :=
    ("file", FormValue.fileVal file) ::
      ((options.bind (·.data)).getD []).map fun p => (p.1, FormValue.strVal p.2)

/-- getCachedFile: cache lookup by derived key. -/
def getCachedFile (st : UploaderState) (fileKey : String) : Option FileHandle :=
  cacheGet st.fileCache fileKey

/-- Recognizer for emitted retry events in a trace. -/
def isRetryAction : Action → Bool
  | Action.emit (Event.retry _ _) => true
  | _ => false

/-- Recognizer for upload-function invocations in a trace. -/
def isCallAction : Action → Bool
  | Action.callUpload _ _ _ => true
  | _ => false

/-- Recognizer for emitted progress events in a trace. -/
def isProgressAction : Action → Bool
  | Action.emit (Event.progress _ _ _) => true
  | _ => false

/-- Recognizer for emitted select events in a trace. -/
def isSelectAction : Action → Bool
  | Action.emit (Event.select _) => true
  | _ => false

/-- Recognizer for emitted error events in a trace. -/
def isErrorAction : Action → Bool
  | Action.emit (Event.error _) => true
  | _ => false

/-- Number of retry events in a trace. -/
def countRetryEvents (tr : List Action) : Nat := tr.countP isRetryAction

/-- Number of upload-function invocations in a trace. -/
def countCallUploads (tr : List Action) : Nat := tr.countP isCallAction

/-- Number of progress events in a trace. -/
def countProgressEvents (tr : List Action) : Nat := tr.countP isProgressAction

/-- Number of select events in a trace. -/
def countSelectEvents (tr : List Action) : Nat := tr.countP isSelectAction

/-- Number of error events in a trace. -/
def countErrorEvents (tr : List Action) : Nat := tr.countP isErrorAction

/-- A sample selected file. -/
def exFile : FileHandle := ⟨"report.pdf", 1024, 1700000000000, "PDFDATA"⟩

/-- A file with the same name, size and lastModified as exFile but different
content. -/
def exFile2 : FileHandle := ⟨"report.pdf", 1024, 1700000000000, "OTHER"⟩

/-- A 20MiB file, over the default 10MiB limit. -/
def exBigFile : FileHandle := ⟨"huge.bin", 20971520, 1700000000000, "Z"⟩

/-- An uploader built with the all-default config. -/
def exState : UploaderState := mkUploader {}

/-- An uploader built with a custom upload function configured. -/
def exStateCustom : UploaderState := mkUploader { customUploader := true }

/-- An attempt oracle whose every attempt times out. -/
def exOut : Nat → AttemptOutcome := fun _ => AttemptOutcome.timesOut

/-- An attempt oracle whose first attempt rejects with the synthetic timeout
error and whose later attempts time out. -/
def exOut2 : Nat → AttemptOutcome := fun n =>
  if n = 0 then AttemptOutcome.rejects timeoutErrorVal else AttemptOutcome.timesOut

/-! Cache lemmas. -/

theorem find?_map_set (k : String) (v : FileHandle) :
    ∀ c : FileCache, (c.any fun p => p.1 == k) = true →
      ((c.map fun p => if p.1 == k then (k, v) else p).find? fun p => p.1 == k) = some (k, v) := by
  intro c
  induction c with
  | nil => intro h; simp at h
  | cons q t ih =>
      intro h
      rw [List.map_cons]
      by_cases hq : q.1 = k
      · have hq1 : (q.1 == k) = true := beq_iff_eq.mpr hq
        simp only [hq1, if_true, List.find?, beq_self_eq_true]
      · have hq1 : (q.1 == k) = false := beq_eq_false_iff_ne.mpr hq
        have ht : (t.any fun p => p.1 == k) = true := by
          rw [List.any_cons, hq1, Bool.false_or] at h
          exact h
        simp only [hq1, Bool.false_eq_true, if_false, List.find?]
        exact ih ht

theorem find?_append_set (k : String) (v : FileHandle) :
    ∀ c : FileCache, (c.any fun p => p.1 == k) = false →
      ((c ++ [(k, v)]).find? fun p => p.1 == k) = some (k, v) := by
  intro c
  induction c with
  | nil =>
      intro _
      rw [List.nil_append]
      simp only [List.find?, beq_self_eq_true]
  | cons q t ih =>
      intro h
      rw [List.any_cons, Bool.or_eq_false_iff] at h
      rw [List.cons_append]
      simp only [List.find?, h.1]
      exact ih h.2

theorem cacheGet_cacheSet_self (c : FileCache) (k : String) (v : FileHandle) :
    cacheGet (cacheSet c k v) k = some v := by
  unfold cacheGet cacheSet
  by_cases h : (c.any fun p => p.1 == k) = true
  · rw [if_pos h, find?_map_set k v c h]
    rfl
  · have h1 : (c.any fun p => p.1 == k) = false := Bool.eq_false_iff.mpr h
    rw [if_neg h, find?_append_set k v c h1]
    rfl

theorem find?_map_set_other (k k' : String) (v : FileHandle) (hne : k' ≠ k) :
    ∀ c : FileCache,
      ((c.map fun p => if p.1 == k then (k, v) else p).find? fun p => p.1 == k') =
        (c.find? fun p => p.1 == k') := by
  intro c
  induction c with
  | nil => rfl
  | cons q t ih =>
      rw [List.map_cons]
      by_cases hq : q.1 = k
      · have hq1 : (q.1 == k) = true := beq_iff_eq.mpr hq
        have hk : (k == k') = false := beq_eq_false_iff_ne.mpr (Ne.symm hne)
        have hq2 : (q.1 == k') = false := by
          rw [hq]
          exact hk
        simp only [hq1, if_true, List.find?, hk, hq2]
        exact ih
      · have hq1 : (q.1 == k) = false := beq_eq_false_iff_ne.mpr hq
        simp only [hq1, Bool.false_eq_true, if_false, List.find?]
        cases hq3 : q.1 == k' with
        | true => rfl
        | false => exact ih

theorem find?_append_other (k k' : String) (v : FileHandle) (hne : k' ≠ k) :
    ∀ c : FileCache,
      ((c ++ [(k, v)]).find? fun p => p.1 == k') = (c.find? fun p => p.1 == k') := by
  intro c
  induction c with
  | nil =>
      have hk : (k == k') = false := beq_eq_false_iff_ne.mpr (Ne.symm hne)
      rw [List.nil_append]
      simp only [List.find?, hk]
  | cons q t ih =>
      rw [List.cons_append]
      simp only [List.find?]
      cases hq3 : q.1 == k' with
      | true => rfl
      | false => exact ih

theorem cacheGet_cacheSet_other (c : FileCache) (k k' : String) (v : FileHandle)
    (hne : k' ≠ k) : cacheGet (cacheSet c k v) k' = cacheGet c k' := by
  unfold cacheGet cacheSet
  by_cases h : (c.any fun p => p.1 == k) = true
  · rw [if_pos h, find?_map_set_other k k' v hne c]
  · rw [if_neg h, find?_append_other k k' v hne c]

theorem cacheGet_cacheSet_cases (c : FileCache) (k k' : String) (v w : FileHandle)
    (h : cacheGet (cacheSet c k v) k' = some w) :
    cacheGet c k' = some w ∨ w = v := by
  by_cases hk : k' = k
  · subst hk
    rw [cacheGet_cacheSet_self] at h
    right
    exact (Option.some_inj.mp h).symm
  · rw [cacheGet_cacheSet_other c k k' v hk] at h
    exact Or.inl h

theorem cacheGet_isSome_cacheSet (c : FileCache) (k k' : String) (v : FileHandle)
    (h : (cacheGet c k').isSome = true) : (cacheGet (cacheSet c k v) k').isSome = true := by
  by_cases hk : k' = k
  · subst hk
    rw [cacheGet_cacheSet_self]
    rfl
  · rw [cacheGet_cacheSet_other c k k' v hk]
    exact h

theorem cacheGet_foldl_isSome (gk : FileHandle → String) :
    ∀ (fs : List FileHandle) (c : FileCache) (k : String),
      (cacheGet c k).isSome = true →
      (cacheGet (fs.foldl (fun c f => cacheSet c (gk f) f) c) k).isSome = true := by
  intro fs
  induction fs with
  | nil => intro c k h; exact h
  | cons a t ih =>
      intro c k h
      exact ih (cacheSet c (gk a) a) k (cacheGet_isSome_cacheSet c (gk a) k a h)

theorem cacheGet_foldl_mem (gk : FileHandle → String) :
    ∀ (fs : List FileHandle) (c : FileCache) (f : FileHandle), f ∈ fs →
      (cacheGet (fs.foldl (fun c f => cacheSet c (gk f) f) c) (gk f)).isSome = true := by
  intro fs
  induction fs with
  | nil => intro c f h; simp at h
  | cons a t ih =>
      intro c f h
      rcases List.mem_cons.mp h with rfl | h2
      · apply cacheGet_foldl_isSome gk t (cacheSet c (gk f) f) (gk f)
        rw [cacheGet_cacheSet_self]
        rfl
      · exact ih (cacheSet c (gk a) a) f h2

theorem cacheGet_foldl_cases (gk : FileHandle → String) :
    ∀ (fs : List FileHandle) (c : FileCache) (k : String) (w : FileHandle),
      cacheGet (fs.foldl (fun c f => cacheSet c (gk f) f) c) k = some w →
      cacheGet c k = some w ∨ w ∈ fs := by
  intro fs
  induction fs with
  | nil => intro c k w h; exact Or.inl h
  | cons a t ih =>
      intro c k w h
      rcases ih (cacheSet c (gk a) a) k w h with h1 | h2
      · rcases cacheGet_cacheSet_cases c (gk a) k a w h1 with h3 | h4
        · exact Or.inl h3
        · subst h4
          exact Or.inr (by simp)
      · exact Or.inr (List.mem_cons_of_mem a h2)

theorem countP_map_set (k : String) (v : FileHandle) :
    ∀ c : FileCache,
      ((c.map fun p => if p.1 == k then (k, v) else p).countP fun p => p.1 == k) =
        (c.countP fun p => p.1 == k) := by
  intro c
  induction c with
  | nil => rfl
  | cons q t ih =>
      rw [List.map_cons, List.countP_cons, List.countP_cons]
      by_cases hq : q.1 = k
      · have hq1 : (q.1 == k) = true := beq_iff_eq.mpr hq
        simp only [hq1, if_true, beq_self_eq_true, ih]
      · have hq1 : (q.1 == k) = false := beq_eq_false_iff_ne.mpr hq
        simp only [hq1, Bool.false_eq_true, if_false, ih]

theorem countKey_cacheSet_self (c : FileCache) (k : String) (v : FileHandle) :
    countKey (cacheSet c k v) k = max (countKey c k) 1 := by
  unfold countKey cacheSet
  by_cases h : (c.any fun p => p.1 == k) = true
  · rw [if_pos h, countP_map_set k v c]
    have hpos : 0 < c.countP fun p => p.1 == k := by
      rw [List.any_eq_true] at h
      rcases h with ⟨p, hp, hpk⟩
      rw [List.countP_pos_iff]
      exact ⟨p, hp, hpk⟩
    omega
  · have h1 : (c.any fun p => p.1 == k) = false := Bool.eq_false_iff.mpr h
    rw [if_neg h]
    have hzero : (c.countP fun p => p.1 == k) = 0 := by
      rw [List.countP_eq_zero]
      intro p hp
      intro hpk
      have h2 : c.any (fun p => p.1 == k) = true := List.any_eq_true.mpr ⟨p, hp, hpk⟩
      rw [h1] at h2
      exact Bool.false_ne_true h2
    rw [List.countP_append, hzero, List.countP_cons]
    simp [beq_self_eq_true]

theorem cacheGet_cacheDelete_self (k : String) :
    ∀ c : FileCache, cacheGet (cacheDelete c k) k = none := by
  intro c
  induction c with
  | nil => rfl
  | cons q t ih =>
      unfold cacheGet cacheDelete at *
      rw [List.filter_cons]
      by_cases hq : q.1 = k
      · have hq1 : (q.1 == k) = true := beq_iff_eq.mpr hq
        simp only [hq1, Bool.not_true, Bool.false_eq_true, if_false]
        exact ih
      · have hq1 : (q.1 == k) = false := beq_eq_false_iff_ne.mpr hq
        simp only [hq1, Bool.not_false, if_true, List.find?]
        exact ih

theorem cacheGet_cacheDelete_other (k k' : String) (hne : k' ≠ k) :
    ∀ c : FileCache, cacheGet (cacheDelete c k) k' = cacheGet c k' := by
  intro c
  induction c with
  | nil => rfl
  | cons q t ih =>
      unfold cacheGet cacheDelete at *
      rw [List.filter_cons]
      by_cases hq : q.1 = k
      · have hq1 : (q.1 == k) = true := beq_iff_eq.mpr hq
        have hq2 : (q.1 == k') = false := by
          rw [hq]
          exact beq_eq_false_iff_ne.mpr (Ne.symm hne)
        simp only [hq1, Bool.not_true, Bool.false_eq_true, if_false, List.find?, hq2]
        exact ih
      · have hq1 : (q.1 == k) = false := beq_eq_false_iff_ne.mpr hq
        simp only [hq1, Bool.not_false, if_true, List.find?]
        cases hq3 : q.1 == k' with
        | true => rfl
        | false => exact ih

/-! Retry-loop lemmas. -/

theorem attemptGo_ok_of (fn : UploadFn) (file : FileHandle) (options : UploadOptions)
    (timeoutMs : Nat) (out : Nat → AttemptOutcome) (retries gas : Nat) (v : JsVal)
    (h : raceOutcome (out retries) = Except.ok v) :
    attemptGo fn file options timeoutMs out retries gas =
      ([Action.callUpload fn file options, Action.armTimer timeoutMs,
        Action.emit (Event.success v)], Except.ok v) := by
  unfold attemptGo
  rw [h]

theorem attemptGo_err_zero (fn : UploadFn) (file : FileHandle) (options : UploadOptions)
    (timeoutMs : Nat) (out : Nat → AttemptOutcome) (retries : Nat) (e : JsVal)
    (h : raceOutcome (out retries) = Except.error e) :
    attemptGo fn file options timeoutMs out retries 0 =
      ([Action.callUpload fn file options, Action.armTimer timeoutMs,
        Action.emit (Event.error e)], Except.error e) := by
  unfold attemptGo
  rw [h]

theorem attemptGo_err_succ (fn : UploadFn) (file : FileHandle) (options : UploadOptions)
    (timeoutMs : Nat) (out : Nat → AttemptOutcome) (retries g : Nat) (e : JsVal)
    (h : raceOutcome (out retries) = Except.error e) :
    attemptGo fn file options timeoutMs out retries (g + 1) =
      (Action.callUpload fn file options :: Action.armTimer timeoutMs ::
        Action.emit (Event.error e) :: Action.emit (Event.retry (retries + 1) e) ::
        Action.wait (1000 * (retries + 1)) ::
        (attemptGo fn file options timeoutMs out (retries + 1) g).1,
       (attemptGo fn file options timeoutMs out (retries + 1) g).2) := by
  conv_lhs => unfold attemptGo
  rw [h]

theorem attemptGo_allRejects (fn : UploadFn) (file : FileHandle) (options : UploadOptions)
    (timeoutMs : Nat) (errf : Nat → JsVal) :
    ∀ (gas r : Nat),
      attemptGo fn file options timeoutMs (fun n => AttemptOutcome.rejects (errf n)) r gas =
      (((List.range' r gas).flatMap fun i =>
          [Action.callUpload fn file options, Action.armTimer timeoutMs,
           Action.emit (Event.error (errf i)), Action.emit (Event.retry (i + 1) (errf i)),
           Action.wait (1000 * (i + 1))]) ++
        [Action.callUpload fn file options, Action.armTimer timeoutMs,
         Action.emit (Event.error (errf (r + gas)))],
       Except.error (errf (r + gas))) := by
  intro gas
  induction gas with
  | zero =>
      intro r
      rw [attemptGo_err_zero fn file options timeoutMs
        (fun n => AttemptOutcome.rejects (errf n)) r (errf r) rfl]
      simp [List.range']
  | succ g ih =>
      intro r
      rw [attemptGo_err_succ fn file options timeoutMs
        (fun n => AttemptOutcome.rejects (errf n)) r g (errf r) rfl, ih (r + 1)]
      have harith : r + (g + 1) = r + 1 + g := by omega
      rw [harith, List.range'_succ, List.flatMap_cons, List.append_assoc]
      rfl

theorem attemptGo_raceCongr (fn : UploadFn) (file : FileHandle) (options : UploadOptions)
    (timeoutMs : Nat) (out out' : Nat → AttemptOutcome) :
    ∀ (gas r : Nat), (∀ n, r ≤ n → raceOutcome (out n) = raceOutcome (out' n)) →
      attemptGo fn file options timeoutMs out r gas =
      attemptGo fn file options timeoutMs out' r gas := by
  intro gas
  induction gas with
  | zero =>
      intro r h
      cases hro : raceOutcome (out' r) with
      | ok v =>
          rw [attemptGo_ok_of fn file options timeoutMs out r 0 v ((h r (Nat.le_refl r)).trans hro),
            attemptGo_ok_of fn file options timeoutMs out' r 0 v hro]
      | error e =>
          rw [attemptGo_err_zero fn file options timeoutMs out r e ((h r (Nat.le_refl r)).trans hro),
            attemptGo_err_zero fn file options timeoutMs out' r e hro]
  | succ g ih =>
      intro r h
      cases hro : raceOutcome (out' r) with
      | ok v =>
          rw [attemptGo_ok_of fn file options timeoutMs out r (g + 1) v
              ((h r (Nat.le_refl r)).trans hro),
            attemptGo_ok_of fn file options timeoutMs out' r (g + 1) v hro]
      | error e =>
          rw [attemptGo_err_succ fn file options timeoutMs out r g e
              ((h r (Nat.le_refl r)).trans hro),
            attemptGo_err_succ fn file options timeoutMs out' r g e hro,
            ih (r + 1) (fun n hn => h n (by omega))]

theorem attemptGo_rejected_iff (fn : UploadFn) (file : FileHandle) (options : UploadOptions)
    (timeoutMs : Nat) (out : Nat → AttemptOutcome) :
    ∀ (gas r : Nat),
      isRejected (attemptGo fn file options timeoutMs out r gas).2 = true ↔
        ∀ i, r ≤ i → i ≤ r + gas → attemptFails (out i) = true := by
  intro gas
  induction gas with
  | zero =>
      intro r
      cases hro : raceOutcome (out r) with
      | ok v =>
          rw [attemptGo_ok_of fn file options timeoutMs out r 0 v hro]
          simp only [isRejected]
          constructor
          · intro habs
            exact absurd habs Bool.false_ne_true
          · intro hall
            have h2 := hall r (Nat.le_refl r) (by omega)
            unfold attemptFails at h2
            rw [hro] at h2
            exact h2
      | error e =>
          rw [attemptGo_err_zero fn file options timeoutMs out r e hro]
          simp only [isRejected]
          constructor
          · intro _ i h1 h2
            have hi : i = r := by omega
            subst hi
            unfold attemptFails
            rw [hro]
          · intro _
            trivial
  | succ g ih =>
      intro r
      cases hro : raceOutcome (out r) with
      | ok v =>
          rw [attemptGo_ok_of fn file options timeoutMs out r (g + 1) v hro]
          simp only [isRejected]
          constructor
          · intro habs
            exact absurd habs Bool.false_ne_true
          · intro hall
            have h2 := hall r (Nat.le_refl r) (by omega)
            unfold attemptFails at h2
            rw [hro] at h2
            exact h2
      | error e =>
          rw [attemptGo_err_succ fn file options timeoutMs out r g e hro]
          constructor
          · intro h i h1 h2
            by_cases hir : i = r
            · subst hir
              unfold attemptFails
              rw [hro]
            · exact (ih (r + 1)).mp h i (by omega) (by omega)
          · intro hall
            exact (ih (r + 1)).mpr fun i h1 h2 => hall i (by omega) (by omega)

theorem attemptGo_no_progress (fn : UploadFn) (file : FileHandle) (options : UploadOptions)
    (timeoutMs : Nat) (out : Nat → AttemptOutcome) :
    ∀ (gas r : Nat),
      countProgressEvents (attemptGo fn file options timeoutMs out r gas).1 = 0 := by
  intro gas
  induction gas with
  | zero =>
      intro r
      cases hro : raceOutcome (out r) with
      | ok v =>
          rw [attemptGo_ok_of fn file options timeoutMs out r 0 v hro]
          rfl
      | error e =>
          rw [attemptGo_err_zero fn file options timeoutMs out r e hro]
          rfl
  | succ g ih =>
      intro r
      cases hro : raceOutcome (out r) with
      | ok v =>
          rw [attemptGo_ok_of fn file options timeoutMs out r (g + 1) v hro]
          rfl
      | error e =>
          rw [attemptGo_err_succ fn file options timeoutMs out r g e hro]
          simp only [countProgressEvents, List.countP_cons, isProgressAction]
          have h2 := ih (r + 1)
          simp only [countProgressEvents] at h2
          simp [h2]

theorem attemptGo_head (fn : UploadFn) (file : FileHandle) (options : UploadOptions)
    (timeoutMs : Nat) (out : Nat → AttemptOutcome) (retries gas : Nat) :
    (attemptGo fn file options timeoutMs out retries gas).1.head? =
      some (Action.callUpload fn file options) := by
  cases hro : raceOutcome (out retries) with
  | ok v =>
      rw [attemptGo_ok_of fn file options timeoutMs out retries gas v hro]
      rfl
  | error e =>
      cases gas with
      | zero =>
          rw [attemptGo_err_zero fn file options timeoutMs out retries e hro]
          rfl
      | succ g =>
          rw [attemptGo_err_succ fn file options timeoutMs out retries g e hro]
          rfl

theorem countP_flatMap_blocks (p : Action → Bool) (f : Nat → List Action) (c : Nat)
    (h : ∀ i, (f i).countP p = c) :
    ∀ (g s : Nat), ((List.range' s g).flatMap f).countP p = g * c := by
  intro g
  induction g with
  | zero => intro s; simp [List.range']
  | succ g ih =>
      intro s
      rw [List.range'_succ, List.flatMap_cons, List.countP_append, h s, ih (s + 1),
        Nat.succ_mul]
      omega

/-! Option-merging and wrapper lemmas. -/

theorem mergeOptions_empty (d : UploadOptions) : mergeOptions d emptyUploadOptions = d := by
  cases d
  simp [mergeOptions, emptyUploadOptions]

theorem uploadWithProgress_eq (run : List Action × Except JsVal JsVal) :
    uploadWithProgress run = run := rfl

theorem upload_trace (st : UploaderState) (file : FileHandle)
    (uploadOptions : Option UploadOptions) (out : Nat → AttemptOutcome) :
    (upload st file uploadOptions out).trace =
      (attemptGo (chooseUploadFn st.config) file
        (mergeOptions st.defaultUploadOptions (uploadOptions.getD emptyUploadOptions))
        st.config.timeout out 0 st.config.maxRetries).1 := rfl

theorem upload_result (st : UploaderState) (file : FileHandle)
    (uploadOptions : Option UploadOptions) (out : Nat → AttemptOutcome) :
    (upload st file uploadOptions out).result =
      (attemptGo (chooseUploadFn st.config) file
        (mergeOptions st.defaultUploadOptions (uploadOptions.getD emptyUploadOptions))
        st.config.timeout out 0 st.config.maxRetries).2 := rfl

theorem upload_state_cases (st : UploaderState) (file : FileHandle)
    (uploadOptions : Option UploadOptions) (out : Nat → AttemptOutcome) :
    (upload st file uploadOptions out).state =
      match (upload st file uploadOptions out).result with
      | Except.ok _ => { st with fileCache := cacheDelete st.fileCache (generateFileKey file) }
      | Except.error _ => st := rfl

/-! Selection lemmas. -/

theorem sizePasses_of_le (m : Nat) (f : FileHandle) (h : f.size ≤ m) :
    sizePasses m f = true := by
  unfold sizePasses
  by_cases hm : m = 0
  · simp [hm]
  · simp [hm, h]

theorem sizePasses_false_of (m : Nat) (f : FileHandle) (hpos : 0 < m) (hover : m < f.size) :
    sizePasses m f = false := by
  unfold sizePasses
  have hm : ¬ m = 0 := by omega
  have hle : ¬ f.size ≤ m := by omega
  simp [hm, hle]

theorem handleFileSelection_cache (st : UploaderState) (files : List FileHandle) :
    (handleFileSelection st files).state.fileCache =
      (files.filter (sizePasses st.config.maxSize)).foldl
        (fun c f => cacheSet c (generateFileKey f) f) st.fileCache := rfl

theorem handleFileSelection_config (st : UploaderState) (files : List FileHandle) :
    (handleFileSelection st files).state.config = st.config := rfl

/-- Claim C3: every file of a selected batch whose byte size is at or under
the configured max size ends up in the cache under its derived key and in the
payload of the select event, and every batch emits exactly one select event,
also when no file passes the filter. -/
theorem handleFileSelection_C3 (st : UploaderState) (files : List FileHandle) (f : FileHandle)
    (hmem : f ∈ files) (hsize : f.size ≤ st.config.maxSize) :
    (cacheGet (handleFileSelection st files).state.fileCache (generateFileKey f)).isSome = true
    ∧ (∃ payload, Action.emit (Event.select payload) ∈ (handleFileSelection st files).trace
        ∧ f ∈ payload)
    ∧ ∀ (st2 : UploaderState) (files2 : List FileHandle),
        countSelectEvents (handleFileSelection st2 files2).trace = 1 := by
  have hpass : sizePasses st.config.maxSize f = true := sizePasses_of_le _ f hsize
  have hmemv : f ∈ files.filter (sizePasses st.config.maxSize) :=
    List.mem_filter.mpr ⟨hmem, hpass⟩
  refine ⟨?_, ?_, ?_⟩
  · rw [handleFileSelection_cache]
    exact cacheGet_foldl_mem generateFileKey _ st.fileCache f hmemv
  · refine ⟨files.filter (sizePasses st.config.maxSize), ?_, hmemv⟩
    unfold handleFileSelection
    simp
  · intro st2 files2
    unfold handleFileSelection countSelectEvents
    by_cases h : (files2.filter (sizePasses st2.config.maxSize)).length ≠ files2.length
    · simp [h, List.countP_append, List.countP_cons, isSelectAction]
    · simp [h, List.countP_cons, isSelectAction]

/-- Claim C3 witness: a 1KiB file selected on a default-config uploader is
cached under its derived key. -/
theorem handleFileSelection_C3_witness :
    (cacheGet (handleFileSelection exState [exFile]).state.fileCache
      (generateFileKey exFile)).isSome = true :=
  (handleFileSelection_C3 exState [exFile] exFile (by decide) (by decide)).1

/-- Claim C4 counterexample: with a configured max size of 0 bytes, a 5-byte
file exceeds the configured max, yet it is inserted into the cache, included
in the select payload, and no error event is emitted, because the falsy max
size coalesces to Infinity in the filter. -/
theorem handleFileSelection_C4_counterexample :
    (mkUploader { maxSize := some 0 }).config.maxSize <
        (⟨"big.bin", 5, 0, "xxxxx"⟩ : FileHandle).size
    ∧ cacheGet (handleFileSelection (mkUploader { maxSize := some 0 })
        [⟨"big.bin", 5, 0, "xxxxx"⟩]).state.fileCache
        (generateFileKey ⟨"big.bin", 5, 0, "xxxxx"⟩) = some ⟨"big.bin", 5, 0, "xxxxx"⟩
    ∧ (handleFileSelection (mkUploader { maxSize := some 0 })
        [⟨"big.bin", 5, 0, "xxxxx"⟩]).trace =
        [Action.emit (Event.select [⟨"big.bin", 5, 0, "xxxxx"⟩])]
    ∧ countErrorEvents (handleFileSelection (mkUploader { maxSize := some 0 })
        [⟨"big.bin", 5, 0, "xxxxx"⟩]).trace = 0 := by
  refine ⟨by decide, by decide, by decide, by decide⟩

/-- Claim C4 (amended): provided the configured max size is positive (a max
size of 0 is falsy and treated as no limit), every file of a batch whose byte
size exceeds the configured max is excluded from the select payload and from
the cache, the batch emits exactly one error event carrying the fixed
message, and the select event is still emitted (nothing is thrown). -/
theorem handleFileSelection_C4 (st : UploaderState) (files : List FileHandle) (f : FileHandle)
    (hpos : 0 < st.config.maxSize) (hmem : f ∈ files) (hover : st.config.maxSize < f.size)
    (hfresh : ∀ k, cacheGet st.fileCache k ≠ some f) :
    (∀ payload, Action.emit (Event.select payload) ∈ (handleFileSelection st files).trace →
        f ∉ payload)
    ∧ (∀ k, cacheGet (handleFileSelection st files).state.fileCache k ≠ some f)
    ∧ (handleFileSelection st files).trace =
        [Action.emit (Event.error (JsVal.str oversizeMessage)),
         Action.emit (Event.select (files.filter (sizePasses st.config.maxSize)))]
    ∧ countErrorEvents (handleFileSelection st files).trace = 1 := by
  have hfail : sizePasses st.config.maxSize f = false :=
    sizePasses_false_of _ f hpos hover
  have hnotmem : f ∉ files.filter (sizePasses st.config.maxSize) := by
    intro hin
    have h2 := (List.mem_filter.mp hin).2
    rw [hfail] at h2
    exact Bool.false_ne_true h2
  have hlen : (files.filter (sizePasses st.config.maxSize)).length ≠ files.length := by
    intro heq
    have hsub : List.Sublist (files.filter (sizePasses st.config.maxSize)) files :=
      List.filter_sublist files
    have heqf := hsub.eq_of_length heq
    rw [heqf] at hnotmem
    exact hnotmem hmem
  have htrace : (handleFileSelection st files).trace =
      [Action.emit (Event.error (JsVal.str oversizeMessage)),
       Action.emit (Event.select (files.filter (sizePasses st.config.maxSize)))] := by
    unfold handleFileSelection
    simp [hlen]
  refine ⟨?_, ?_, htrace, ?_⟩
  · intro payload hp
    rw [htrace] at hp
    rcases List.mem_cons.mp hp with h1 | h2
    · exact absurd h1 (by simp)
    · rcases List.mem_cons.mp h2 with h3 | h4
      · have : payload = files.filter (sizePasses st.config.maxSize) := by
          injection h3 with h5
          injection h5
        rw [this]
        exact hnotmem
      · exact absurd h4 (by simp)
  · intro k hk
    rw [handleFileSelection_cache] at hk
    rcases cacheGet_foldl_cases generateFileKey _ st.fileCache k f hk with h1 | h2
    · exact hfresh k h1
    · exact hnotmem h2
  · rw [countErrorEvents, htrace]
    rfl

/-- Claim C4 witness: selecting a 20MiB file on a default-config (10MiB
limit) uploader emits the error event followed by the select event. -/
theorem handleFileSelection_C4_witness :
    (handleFileSelection exState [exBigFile]).trace =
      [Action.emit (Event.error (JsVal.str oversizeMessage)),
       Action.emit (Event.select ([exBigFile].filter (sizePasses exState.config.maxSize)))] :=
  (handleFileSelection_C4 exState [exBigFile] exBigFile (by decide) (by decide) (by decide)
    (fun k h => Option.noConfusion
      ((show cacheGet exState.fileCache k = none from rfl) ▸ h))).2.2.1

/-- Claim C7: the derived file key depends only on name, byte size and
lastModified, and reselecting a file with the identical triple produces the
same key and overwrites the prior cache entry, leaving exactly one entry
under that key. -/
theorem generateFileKey_C7 (st : UploaderState) (f g : FileHandle)
    (hn : f.name = g.name) (hs : f.size = g.size) (hl : f.lastModified = g.lastModified)
    (hcount : countKey st.fileCache (generateFileKey g) ≤ 1)
    (hpass : sizePasses st.config.maxSize g = true) :
    generateFileKey f = generateFileKey g
    ∧ cacheGet (handleFileSelection (handleFileSelection st [f]).state [g]).state.fileCache
        (generateFileKey f) = some g
    ∧ countKey (handleFileSelection (handleFileSelection st [f]).state [g]).state.fileCache
        (generateFileKey f) = 1 := by
  have hkey : generateFileKey f = generateFileKey g := by
    unfold generateFileKey
    rw [hn, hs, hl]
  have hpf : sizePasses st.config.maxSize f = true := by
    unfold sizePasses at hpass ⊢
    rw [hs]
    exact hpass
  have hc1 : (handleFileSelection st [f]).state.fileCache =
      cacheSet st.fileCache (generateFileKey f) f := by
    rw [handleFileSelection_cache]
    simp [List.filter, hpf]
  have hc2 : (handleFileSelection (handleFileSelection st [f]).state [g]).state.fileCache =
      cacheSet (cacheSet st.fileCache (generateFileKey f) f) (generateFileKey g) g := by
    rw [handleFileSelection_cache, handleFileSelection_config]
    simp [List.filter, hpass, hc1]
  refine ⟨hkey, ?_, ?_⟩
  · rw [hc2, hkey]
    exact cacheGet_cacheSet_self _ _ g
  · rw [hc2, hkey, countKey_cacheSet_self, countKey_cacheSet_self]
    omega

/-- Claim C7 witness: reselecting a file with the identical metadata triple
but different content overwrites the cache entry on a fresh uploader. -/
theorem generateFileKey_C7_witness :
    cacheGet (handleFileSelection (handleFileSelection exState [exFile]).state
      [exFile2]).state.fileCache (generateFileKey exFile) = some exFile2 :=
  (generateFileKey_C7 exState exFile exFile2 rfl rfl rfl (by decide) (by decide)).2.1

/-! Upload claim theorems. -/

/-- Claim C1: with an upload function rejecting on every attempt and
configured maxRetries N, upload makes N + 1 attempts (each arming the
configured timeout timer), emits one error and one retry event with payload
attempt k and the error of attempt k for k from 1 to N, waits 1000ms times k
before attempt k + 1, and finally rejects with the last error. -/
theorem upload_C1 (st : UploaderState) (file : FileHandle)
    (uploadOptions : Option UploadOptions) (errf : Nat → JsVal) :
    (upload st file uploadOptions (fun n => AttemptOutcome.rejects (errf n))).trace =
      (((List.range' 0 st.config.maxRetries).flatMap fun i =>
          [Action.callUpload (chooseUploadFn st.config) file
             (mergeOptions st.defaultUploadOptions (uploadOptions.getD emptyUploadOptions)),
           Action.armTimer st.config.timeout,
           Action.emit (Event.error (errf i)), Action.emit (Event.retry (i + 1) (errf i)),
           Action.wait (1000 * (i + 1))]) ++
        [Action.callUpload (chooseUploadFn st.config) file
           (mergeOptions st.defaultUploadOptions (uploadOptions.getD emptyUploadOptions)),
         Action.armTimer st.config.timeout,
         Action.emit (Event.error (errf st.config.maxRetries))])
    ∧ (upload st file uploadOptions (fun n => AttemptOutcome.rejects (errf n))).result =
        Except.error (errf st.config.maxRetries)
    ∧ countRetryEvents
        (upload st file uploadOptions (fun n => AttemptOutcome.rejects (errf n))).trace =
        st.config.maxRetries
    ∧ countCallUploads
        (upload st file uploadOptions (fun n => AttemptOutcome.rejects (errf n))).trace =
        st.config.maxRetries + 1 := by
  have hgo := attemptGo_allRejects (chooseUploadFn st.config) file
    (mergeOptions st.defaultUploadOptions (uploadOptions.getD emptyUploadOptions))
    st.config.timeout errf st.config.maxRetries 0
  rw [Nat.zero_add] at hgo
  have htr : (upload st file uploadOptions (fun n => AttemptOutcome.rejects (errf n))).trace =
      (((List.range' 0 st.config.maxRetries).flatMap fun i =>
          [Action.callUpload (chooseUploadFn st.config) file
             (mergeOptions st.defaultUploadOptions (uploadOptions.getD emptyUploadOptions)),
           Action.armTimer st.config.timeout,
           Action.emit (Event.error (errf i)), Action.emit (Event.retry (i + 1) (errf i)),
           Action.wait (1000 * (i + 1))]) ++
        [Action.callUpload (chooseUploadFn st.config) file
           (mergeOptions st.defaultUploadOptions (uploadOptions.getD emptyUploadOptions)),
         Action.armTimer st.config.timeout,
         Action.emit (Event.error (errf st.config.maxRetries))]) := by
    rw [upload_trace, hgo]
  refine ⟨htr, ?_, ?_, ?_⟩
  · rw [upload_result, hgo]
  · rw [countRetryEvents, htr, List.countP_append,
      countP_flatMap_blocks isRetryAction
        (fun i =>
          [Action.callUpload (chooseUploadFn st.config) file
             (mergeOptions st.defaultUploadOptions (uploadOptions.getD emptyUploadOptions)),
           Action.armTimer st.config.timeout,
           Action.emit (Event.error (errf i)), Action.emit (Event.retry (i + 1) (errf i)),
           Action.wait (1000 * (i + 1))])
        1 (fun i => rfl) st.config.maxRetries 0]
    simp [isRetryAction, List.countP_cons]
  · rw [countCallUploads, htr, List.countP_append,
      countP_flatMap_blocks isCallAction
        (fun i =>
          [Action.callUpload (chooseUploadFn st.config) file
             (mergeOptions st.defaultUploadOptions (uploadOptions.getD emptyUploadOptions)),
           Action.armTimer st.config.timeout,
           Action.emit (Event.error (errf i)), Action.emit (Event.retry (i + 1) (errf i)),
           Action.wait (1000 * (i + 1))])
        1 (fun i => rfl) st.config.maxRetries 0]
    simp [isCallAction, List.countP_cons]

/-- Claim C2: no upload run ever emits a progress event.  The onprogress
handler that would translate native progress events into progress events is
installed on an XMLHttpRequest that never issues a request, while the actual
transfer goes through fetch, so the built-in transport path emits no progress
events either. -/
theorem upload_C2_no_progress (st : UploaderState) (file : FileHandle)
    (uploadOptions : Option UploadOptions) (out : Nat → AttemptOutcome) :
    countProgressEvents (upload st file uploadOptions out).trace = 0 := by
  rw [upload_trace]
  exact attemptGo_no_progress (chooseUploadFn st.config) file
    (mergeOptions st.defaultUploadOptions (uploadOptions.getD emptyUploadOptions))
    st.config.timeout out st.config.maxRetries 0

/-- Claim C5: upload passes the per-call options shallow-merged over the
default upload options with per-call values winning, setDefaultUploadOptions
shallow-merges into the defaults, and after setDefaultUploadOptions with url
/a an upload without per-call options reaches the transport with address
/a. -/
theorem upload_C5 (st : UploaderState) (file : FileHandle) (out : Nat → AttemptOutcome)
    (d p : UploadOptions) (u : String) (hu : p.url = some u) :
    (mergeOptions d p).url = some u
    ∧ (∀ q : UploadOptions, q.url = none → (mergeOptions d q).url = d.url)
    ∧ (∀ pc : UploadOptions,
        (upload st file (some pc) out).trace.head? =
          some (Action.callUpload (chooseUploadFn st.config) file
            (mergeOptions st.defaultUploadOptions pc)))
    ∧ (setDefaultUploadOptions st { url := some "/a" }).defaultUploadOptions.url = some "/a"
    ∧ (upload (setDefaultUploadOptions st { url := some "/a" }) file none out).trace.head? =
        some (Action.callUpload (chooseUploadFn st.config) file
          (setDefaultUploadOptions st { url := some "/a" }).defaultUploadOptions)
    ∧ (defaultUploader file
        (some (setDefaultUploadOptions st { url := some "/a" }).defaultUploadOptions)).url
        = "/a" := by
  refine ⟨?_, ?_, ?_, ?_, ?_, ?_⟩
  · simp [mergeOptions, hu]
  · intro q hq
    simp [mergeOptions, hq]
  · intro pc
    rw [upload_trace]
    exact attemptGo_head (chooseUploadFn st.config) file
      (mergeOptions st.defaultUploadOptions pc) st.config.timeout out 0 st.config.maxRetries
  · simp [setDefaultUploadOptions, mergeOptions]
  · rw [upload_trace, Option.getD_none, mergeOptions_empty]
    exact attemptGo_head (chooseUploadFn st.config) file
      (setDefaultUploadOptions st { url := some "/a" }).defaultUploadOptions
      st.config.timeout out 0 st.config.maxRetries
  · have hurl : (setDefaultUploadOptions st { url := some "/a" }).defaultUploadOptions.url
        = some "/a" := by
      simp [setDefaultUploadOptions, mergeOptions]
    simp [defaultUploader, jsOrStr, hurl]

/-- Claim C5 witness: a per-call url of /x wins the merge over any default. -/
theorem upload_C5_witness :
    (mergeOptions emptyUploadOptions { url := some "/x" }).url = some "/x" :=
  (upload_C5 exState exFile exOut emptyUploadOptions { url := some "/x" } "/x" rfl).1

/-- Claim C6: with a custom upload function configured and a first attempt
that resolves, upload invokes the custom function exactly once with the file
and the merged options, emits one success event with the result, and resolves
with that result; without a custom function the built-in transport is
chosen. -/
theorem upload_C6 (st : UploaderState) (file : FileHandle)
    (uploadOptions : Option UploadOptions) (v : JsVal) (out : Nat → AttemptOutcome)
    (hcustom : st.config.customUploader = true)
    (hfirst : out 0 = AttemptOutcome.resolves v) :
    (upload st file uploadOptions out).trace =
      [Action.callUpload UploadFn.custom file
         (mergeOptions st.defaultUploadOptions (uploadOptions.getD emptyUploadOptions)),
       Action.armTimer st.config.timeout, Action.emit (Event.success v)]
    ∧ (upload st file uploadOptions out).result = Except.ok v
    ∧ countCallUploads (upload st file uploadOptions out).trace = 1
    ∧ ∀ c : ResolvedConfig, c.customUploader = false →
        chooseUploadFn c = UploadFn.builtin := by
  have hfn : chooseUploadFn st.config = UploadFn.custom := by
    unfold chooseUploadFn
    rw [hcustom]
    rfl
  have hrace : raceOutcome (out 0) = Except.ok v := by
    rw [hfirst]
    rfl
  have hgo := attemptGo_ok_of (chooseUploadFn st.config) file
    (mergeOptions st.defaultUploadOptions (uploadOptions.getD emptyUploadOptions))
    st.config.timeout out 0 st.config.maxRetries v hrace
  have htr : (upload st file uploadOptions out).trace =
      [Action.callUpload UploadFn.custom file
         (mergeOptions st.defaultUploadOptions (uploadOptions.getD emptyUploadOptions)),
       Action.armTimer st.config.timeout, Action.emit (Event.success v)] := by
    rw [upload_trace, hgo, hfn]
  refine ⟨htr, ?_, ?_, ?_⟩
  · rw [upload_result, hgo]
  · rw [countCallUploads, htr]
    rfl
  · intro c hc
    unfold chooseUploadFn
    rw [hc]
    rfl

/-- Claim C6 witness: a resolving custom uploader on a custom-configured
instance resolves the upload with the custom result. -/
theorem upload_C6_witness :
    (upload exStateCustom exFile none (fun _ => AttemptOutcome.resolves (JsVal.str "done"))).result
      = Except.ok (JsVal.str "done") :=
  (upload_C6 exStateCustom exFile none (JsVal.str "done")
    (fun _ => AttemptOutcome.resolves (JsVal.str "done")) rfl rfl).2.1

theorem upload_congr (st : UploaderState) (file : FileHandle)
    (uploadOptions : Option UploadOptions) (out out' : Nat → AttemptOutcome)
    (h : attemptGo (chooseUploadFn st.config) file
        (mergeOptions st.defaultUploadOptions (uploadOptions.getD emptyUploadOptions))
        st.config.timeout out 0 st.config.maxRetries =
      attemptGo (chooseUploadFn st.config) file
        (mergeOptions st.defaultUploadOptions (uploadOptions.getD emptyUploadOptions))
        st.config.timeout out' 0 st.config.maxRetries) :
    upload st file uploadOptions out = upload st file uploadOptions out' := by
  simp only [upload, attemptUpload, Nat.sub_zero]
  rw [h]

/-- Claim C8: a first attempt whose timer fires before the upload promise
settles behaves exactly like a first attempt rejecting with the synthetic
Upload timeout error (same state, same trace of error and retry events, same
settled value), and the promise returned by upload is rejected exactly when
every one of the maxRetries + 1 attempts fails. -/
theorem upload_C8 (st : UploaderState) (file : FileHandle)
    (uploadOptions : Option UploadOptions) (out out' : Nat → AttemptOutcome)
    (h0 : out 0 = AttemptOutcome.timesOut)
    (h0' : out' 0 = AttemptOutcome.rejects timeoutErrorVal)
    (hrest : ∀ n, 1 ≤ n → out n = out' n) :
    upload st file uploadOptions out = upload st file uploadOptions out'
    ∧ ∀ (out2 : Nat → AttemptOutcome),
        isRejected (upload st file uploadOptions out2).result = true ↔
          ∀ i, i ≤ st.config.maxRetries → attemptFails (out2 i) = true := by
  constructor
  · apply upload_congr
    apply attemptGo_raceCongr
    intro n hn
    match n with
    | 0 =>
        rw [h0, h0']
        rfl
    | m + 1 =>
        rw [hrest (m + 1) (by omega)]
  · intro out2
    rw [upload_result]
    have hiff := attemptGo_rejected_iff (chooseUploadFn st.config) file
      (mergeOptions st.defaultUploadOptions (uploadOptions.getD emptyUploadOptions))
      st.config.timeout out2 st.config.maxRetries 0
    rw [Nat.zero_add] at hiff
    exact ⟨fun h i hi => hiff.mp h i (Nat.zero_le i) hi,
      fun h => hiff.mpr fun i h1 h2 => h i h2⟩

/-- Claim C8 witness: a run whose first attempt times out equals the run
whose first attempt rejects with the synthetic timeout error. -/
theorem upload_C8_witness :
    upload exState exFile none exOut = upload exState exFile none exOut2 :=
  (upload_C8 exState exFile none exOut exOut2 rfl rfl
    (fun n hn => by
      unfold exOut exOut2
      have h2 : ¬ n = 0 := by omega
      simp [h2])).1

/-- Claim C9: upload never touches the config or the default upload options;
a rejected upload leaves the whole state (cache included) unchanged, and a
successful upload removes exactly the cache entry under the uploaded file's
derived key, leaving every other entry unchanged. -/
theorem upload_C9 (st : UploaderState) (file : FileHandle)
    (uploadOptions : Option UploadOptions) (out : Nat → AttemptOutcome) :
    (upload st file uploadOptions out).state.config = st.config
    ∧ (upload st file uploadOptions out).state.defaultUploadOptions = st.defaultUploadOptions
    ∧ (isRejected (upload st file uploadOptions out).result = true →
        (upload st file uploadOptions out).state = st)
    ∧ (isRejected (upload st file uploadOptions out).result = false →
        (upload st file uploadOptions out).state.fileCache =
            cacheDelete st.fileCache (generateFileKey file)
          ∧ cacheGet (upload st file uploadOptions out).state.fileCache (generateFileKey file)
              = none
          ∧ ∀ k, k ≠ generateFileKey file →
              cacheGet (upload st file uploadOptions out).state.fileCache k =
                cacheGet st.fileCache k) := by
  refine ⟨?_, ?_, ?_, ?_⟩
  · rw [upload_state_cases]
    cases (upload st file uploadOptions out).result with
    | ok v => rfl
    | error e => rfl
  · rw [upload_state_cases]
    cases (upload st file uploadOptions out).result with
    | ok v => rfl
    | error e => rfl
  · intro h
    rw [upload_state_cases]
    cases hres : (upload st file uploadOptions out).result with
    | ok v =>
        rw [hres] at h
        exact absurd h (by simp [isRejected])
    | error e => rfl
  · intro h
    cases hres : (upload st file uploadOptions out).result with
    | ok v =>
        rw [upload_state_cases, hres]
        refine ⟨rfl, ?_, ?_⟩
        · exact cacheGet_cacheDelete_self (generateFileKey file) st.fileCache
        · intro k hk
          exact cacheGet_cacheDelete_other (generateFileKey file) k hk st.fileCache
    | error e =>
        rw [hres] at h
        exact absurd h (by simp [isRejected])

/-- Claim C9 witness: after a successful upload of a file on a fresh
uploader, its derived key is absent from the cache. -/
theorem upload_C9_witness :
    cacheGet (upload exState exFile none
        (fun _ => AttemptOutcome.resolves (JsVal.num 1))).state.fileCache
      (generateFileKey exFile) = none :=
  ((upload_C9 exState exFile none (fun _ => AttemptOutcome.resolves (JsVal.num 1))).2.2.2
    rfl).2.1

/-- Claim C10: a freshly constructed uploader has default upload options
method POST and url /upload, and an upload without per-call options and
before any setDefaultUploadOptions call hands exactly these options to the
chosen upload function; for them the built-in transport issues its request to
/upload with method POST, and without a custom uploader the built-in
transport is the chosen function. -/
theorem upload_C10 (config : UploadConfig) (file : FileHandle)
    (out : Nat → AttemptOutcome) :
    (mkUploader config).defaultUploadOptions =
      { url := some "/upload", method := some "POST" }
    ∧ (upload (mkUploader config) file none out).trace.head? =
        some (Action.callUpload (chooseUploadFn (mkUploader config).config) file
          (mkUploader config).defaultUploadOptions)
    ∧ (defaultUploader file (some (mkUploader config).defaultUploadOptions)).url = "/upload"
    ∧ (defaultUploader file (some (mkUploader config).defaultUploadOptions)).method = "POST"
    ∧ (config.customUploader = false →
        chooseUploadFn (mkUploader config).config = UploadFn.builtin) := by
  refine ⟨rfl, ?_, rfl, rfl, ?_⟩
  · rw [upload_trace, Option.getD_none, mergeOptions_empty]
    exact attemptGo_head (chooseUploadFn (mkUploader config).config) file
      (mkUploader config).defaultUploadOptions (mkUploader config).config.timeout out 0
      (mkUploader config).config.maxRetries
  · intro h
    unfold chooseUploadFn mkUploader resolveConfig
    rw [h]
    rfl

/-- Claim C10 witness: the default-config uploader chooses the built-in
transport. -/
theorem upload_C10_witness :
    chooseUploadFn (mkUploader {}).config = UploadFn.builtin :=
  (upload_C10 {} exFile exOut).2.2.2.2 rfl

end Mtup
